import Mathlib

/-!
Formal model of the potato disease classification pipeline
(repository `potato-disease-classification-ai`, app `potato_classifier`).

The pipeline lives in `potato_classifier/utils.py` (preprocessing-detection,
image normalization, ONNX inference, result formatting) and is orchestrated by
`ClassifyImageView.post` in `potato_classifier/views.py`.  Python floats are
modelled as rationals (the claims proved here use only comparisons and exact
division by 255, never inexact arithmetic), numpy arrays as nested lists or as
an explicit shape-plus-data record, and Python exceptions as `Except` /
explicit error branches.
-/

namespace PotatoClassifier

/-! ### Result formatting (`utils.py`, lines 9-69 and 162-191) -/

/-- `CLASS_NAMES` from `utils.py` lines 9-17: the canonical ordered label list. -/
def CLASS_NAMES : List String :=
  ["Bacteria", "Fungi", "Nematode", "Pest", "Pythopthora", "Virus", "Healthy"]

/-- `DISEASE_RECOMMENDATIONS` from `utils.py` lines 19-69, as an association
list mirroring the Python dict (insertion order preserved). -/
def DISEASE_RECOMMENDATIONS : List (String × List String) :=
  [ ("Bacteria",
     [ "Apply copper-based bactericides as preventive measure",
       "Ensure proper field drainage to reduce moisture",
       "Rotate crops with non-host plants for 2-3 years",
       "Remove and destroy infected plant debris",
       "Use certified disease-free seed potatoes" ]),
    ("Fungi",
     [ "Apply fungicide treatments during favorable weather conditions",
       "Improve air circulation around plants by proper spacing",
       "Avoid overhead irrigation to reduce leaf wetness",
       "Practice crop rotation with non-susceptible crops",
       "Remove infected plant material and dispose properly" ]),
    ("Nematode",
     [ "Use nematode-resistant potato varieties when available",
       "Apply organic soil amendments like compost to improve soil health",
       "Practice long-term crop rotation with non-host crops",
       "Consider soil solarization in heavily infested areas",
       "Use beneficial nematodes as biological control agents" ]),
    ("Pest",
     [ "Monitor fields regularly for early pest detection",
       "Use integrated pest management (IPM) strategies",
       "Apply targeted insecticides only when threshold levels are reached",
       "Encourage beneficial insects by maintaining habitat diversity",
       "Remove weeds that may harbor pest insects" ]),
    ("Pythopthora",
     [ "Improve soil drainage and avoid waterlogged conditions",
       "Apply preventive fungicide treatments during wet periods",
       "Plant in raised beds to improve drainage",
       "Use resistant potato varieties when available",
       "Avoid working in fields when plants are wet" ]),
    ("Virus",
     [ "Control aphid vectors through insecticide applications",
       "Use certified virus-free seed potatoes",
       "Remove infected plants immediately to prevent spread",
       "Control weeds that may serve as virus reservoirs",
       "Practice good field sanitation and equipment cleaning" ]),
    ("Healthy",
     [ "Continue current management practices as they are effective",
       "Monitor plants regularly for any signs of disease or stress",
       "Maintain proper fertilization and irrigation schedules",
       "Keep fields clean of weeds and plant debris",
       "Rotate crops to prevent soil-borne disease buildup" ]) ]

/-- The generic fallback passed to `DISEASE_RECOMMENDATIONS.get` in
`get_classification_results` (`utils.py` lines 177-183). -/
def FALLBACK_RECOMMENDATIONS : List String :=
  [ "Consult with a plant pathologist for specific treatment recommendations",
    "Monitor the affected area closely for changes",
    "Consider laboratory testing for accurate diagnosis",
    "Implement general good agricultural practices",
    "Keep detailed records of symptoms and treatments" ]

/-- Python `dict.get(key, default)` on an association list. -/
def dict_get (d : List (String × List String)) (key : String)
    (default : List String) : List String :=
  (d.lookup key).getD default

/-- Scanning worker for `np.argmax`: `i` is the index of the head of `rest` in
the full list, `bi`/`bv` the index and value of the current best (a new best is
taken only on strict improvement, so the first maximum wins). -/
def np_argmax_aux : List ℚ → Nat → Nat → ℚ → Nat
  | [], _, bi, _ => bi
  | x :: rest, i, bi, bv =>
    if bv < x then np_argmax_aux rest (i + 1) i x
    else np_argmax_aux rest (i + 1) bi bv

/-- `np.argmax` on a 1-D array: index of the first occurrence of the maximum
(0 on the empty list, which `get_classification_results` never passes). -/
def np_argmax : List ℚ → Nat
  | [] => 0
  | x :: rest => np_argmax_aux rest 1 0 x

/-- The record returned by `get_classification_results` (`utils.py` lines
186-191); `all_predictions` is the Python dict as an association list in
insertion order. -/
structure ClassificationResults where
  predicted_class : String
  confidence : ℚ
  all_predictions : List (String × ℚ)
  recommendations : List String
  deriving Repr, DecidableEq

/-- `get_classification_results` from `utils.py` lines 162-191.  Python list
indexing is modelled with `getD`; for the length-7 vectors produced by the
model the argmax index is in range, so the default is never taken. -/
def get_classification_results (predictions : List ℚ) : ClassificationResults :=
  let predicted_class_idx := np_argmax predictions
  let predicted_class := CLASS_NAMES.getD predicted_class_idx ""
  let confidence := predictions.getD predicted_class_idx 0
  let all_predictions := CLASS_NAMES.enum.map (fun ic => (ic.2, predictions.getD ic.1 0))
  let recommendations := dict_get DISEASE_RECOMMENDATIONS predicted_class FALLBACK_RECOMMENDATIONS
  { predicted_class := predicted_class
    confidence := confidence
    all_predictions := all_predictions
    recommendations := recommendations }

/-! #### Lemmas about `np_argmax` -/

/-- Full behaviour of the scanning worker: either the incoming best survives
and bounds every remaining element, or the result points at the first strict
maximum of the remaining elements. -/
theorem np_argmax_aux_spec (xs : List ℚ) :
    ∀ (i bi : Nat) (bv : ℚ),
      (np_argmax_aux xs i bi bv = bi ∧ ∀ j, j < xs.length → xs.getD j 0 ≤ bv) ∨
      (∃ j, j < xs.length ∧ np_argmax_aux xs i bi bv = i + j ∧ bv < xs.getD j 0 ∧
        (∀ j', j' < xs.length → xs.getD j' 0 ≤ xs.getD j 0) ∧
        (∀ j', j' < j → xs.getD j' 0 < xs.getD j 0)) := by
  induction xs with
  | nil =>
    intro i bi bv
    exact Or.inl ⟨rfl, fun j hj => absurd hj (by simp)⟩
  | cons x rest ih =>
    intro i bi bv
    by_cases hx : bv < x
    · rcases ih (i + 1) i x with ⟨heq, hbound⟩ | ⟨j, hj, heq, hlt, hmax, hfirst⟩
      · refine Or.inr ⟨0, by simp, ?_, ?_, ?_, ?_⟩
        · simpa [np_argmax_aux, hx] using heq
        · simpa using hx
        · intro j' hj'
          cases j' with
          | zero => simp
          | succ k =>
            simp only [List.getD_cons_succ, List.getD_cons_zero]
            exact hbound k (by simpa using hj')
        · intro j' hj'; omega
      · refine Or.inr ⟨j + 1, by simpa using hj, ?_, ?_, ?_, ?_⟩
        · simp only [np_argmax_aux, if_pos hx]
          rw [heq]; omega
        · simp only [List.getD_cons_succ]
          exact lt_trans hx hlt
        · intro j' hj'
          cases j' with
          | zero =>
            simp only [List.getD_cons_zero, List.getD_cons_succ]
            exact le_of_lt hlt
          | succ k =>
            simp only [List.getD_cons_succ]
            exact hmax k (by simpa using hj')
        · intro j' hj'
          cases j' with
          | zero =>
            simp only [List.getD_cons_zero, List.getD_cons_succ]
            exact hlt
          | succ k =>
            simp only [List.getD_cons_succ]
            exact hfirst k (by omega)
    · rcases ih (i + 1) bi bv with ⟨heq, hbound⟩ | ⟨j, hj, heq, hlt, hmax, hfirst⟩
      · refine Or.inl ⟨by simpa [np_argmax_aux, hx] using heq, ?_⟩
        intro j hjlen
        cases j with
        | zero =>
          simp only [List.getD_cons_zero]
          exact not_lt.mp hx
        | succ k =>
          simp only [List.getD_cons_succ]
          exact hbound k (by simpa using hjlen)
      · refine Or.inr ⟨j + 1, by simpa using hj, ?_, ?_, ?_, ?_⟩
        · simp only [np_argmax_aux, if_neg hx]
          rw [heq]; omega
        · simp only [List.getD_cons_succ]
          exact hlt
        · intro j' hj'
          cases j' with
          | zero =>
            simp only [List.getD_cons_zero, List.getD_cons_succ]
            exact le_trans (not_lt.mp hx) (le_of_lt hlt)
          | succ k =>
            simp only [List.getD_cons_succ]
            exact hmax k (by simpa using hj')
        · intro j' hj'
          cases j' with
          | zero =>
            simp only [List.getD_cons_zero, List.getD_cons_succ]
            exact lt_of_le_of_lt (not_lt.mp hx) hlt
          | succ k =>
            simp only [List.getD_cons_succ]
            exact hfirst k (by omega)

/-- `np_argmax` of a nonempty list is an in-range index of a maximum, and every
earlier element is strictly smaller (first-occurrence tie-break). -/
theorem np_argmax_spec (v : List ℚ) (hv : v ≠ []) :
    np_argmax v < v.length ∧
      (∀ j, j < v.length → v.getD j 0 ≤ v.getD (np_argmax v) 0) ∧
      (∀ j, j < np_argmax v → v.getD j 0 < v.getD (np_argmax v) 0) := by
  cases v with
  | nil => exact absurd rfl hv
  | cons x rest =>
    show np_argmax_aux rest 1 0 x < rest.length + 1 ∧ _
    rcases np_argmax_aux_spec rest 1 0 x with ⟨heq, hbound⟩ | ⟨j, hj, heq, hlt, hmax, hfirst⟩
    · refine ⟨by simp [np_argmax, heq], ?_, ?_⟩
      · intro j hjlen
        simp only [np_argmax, heq, List.getD_cons_zero]
        cases j with
        | zero => simp
        | succ k =>
          simp only [List.getD_cons_succ]
          exact hbound k (by simpa using hjlen)
      · intro j hjlt
        simp only [np_argmax, heq] at hjlt
        omega
    · have hres : np_argmax (x :: rest) = j + 1 := by
        simp only [np_argmax, heq]; omega
      refine ⟨by rw [heq]; omega, ?_, ?_⟩
      · intro j' hj'len
        simp only [hres, List.getD_cons_succ]
        cases j' with
        | zero => simpa using le_of_lt hlt
        | succ k =>
          simp only [List.getD_cons_succ]
          exact hmax k (by simpa using hj'len)
      · intro j' hj'lt
        simp only [hres, List.getD_cons_succ]
        cases j' with
        | zero => simpa using hlt
        | succ k =>
          simp only [List.getD_cons_succ]
          exact hfirst k (by omega)

/-- The argmax of a length-7 vector is an index below 7. -/
theorem np_argmax_lt_seven (v : List ℚ) (h : v.length = 7) : np_argmax v < 7 := by
  have hne : v ≠ [] := by
    intro hnil; rw [hnil] at h; simp at h
  have := (np_argmax_spec v hne).1
  omega

/-- The `all_predictions` dict built by the `for i, class_name in
enumerate(CLASS_NAMES)` loop, written out. -/
theorem all_predictions_eq (v : List ℚ) :
    (get_classification_results v).all_predictions =
      [ ("Bacteria", v.getD 0 0), ("Fungi", v.getD 1 0), ("Nematode", v.getD 2 0),
        ("Pest", v.getD 3 0), ("Pythopthora", v.getD 4 0), ("Virus", v.getD 5 0),
        ("Healthy", v.getD 6 0) ] := rfl

/-- `predicted_class` is the canonical name at the argmax index. -/
theorem predicted_class_eq (v : List ℚ) :
    (get_classification_results v).predicted_class =
      CLASS_NAMES.getD (np_argmax v) "" := rfl

/-- `confidence` is the score at the argmax index. -/
theorem confidence_eq (v : List ℚ) :
    (get_classification_results v).confidence = v.getD (np_argmax v) 0 := rfl

/-- `recommendations` is the `dict.get` lookup at the predicted class. -/
theorem recommendations_eq (v : List ℚ) :
    (get_classification_results v).recommendations =
      dict_get DISEASE_RECOMMENDATIONS (CLASS_NAMES.getD (np_argmax v) "")
        FALLBACK_RECOMMENDATIONS := rfl

/-- Looking up the canonical label at index `k < 7` in `all_predictions`
returns the score at position `k`. -/
theorem lookup_all_predictions (v : List ℚ) (k : Nat) (hk : k < 7) :
    ((get_classification_results v).all_predictions).lookup (CLASS_NAMES.getD k "")
      = some (v.getD k 0) := by
  rw [all_predictions_eq]
  interval_cases k <;> rfl

/-- The recommendation table has an entry for every canonical label, and it is
exactly what the `dict.get` in `get_classification_results` returns. -/
theorem rec_lookup_getD (k : Nat) (hk : k < 7) :
    DISEASE_RECOMMENDATIONS.lookup (CLASS_NAMES.getD k "")
      = some (dict_get DISEASE_RECOMMENDATIONS (CLASS_NAMES.getD k "")
          FALLBACK_RECOMMENDATIONS) := by
  interval_cases k <;> rfl

/-- Each table entry has exactly 5 recommendations. -/
theorem rec_length_getD (k : Nat) (hk : k < 7) :
    (dict_get DISEASE_RECOMMENDATIONS (CLASS_NAMES.getD k "")
        FALLBACK_RECOMMENDATIONS).length = 5 := by
  interval_cases k <;> rfl

/-- C1: for every score vector of length 7, `get_classification_results`
returns `predicted_class` equal to the canonical label at the position of the
maximum score (ties broken by lowest index), `confidence` equal to that
maximum, and `all_predictions` binding exactly the 7 canonical labels to the
scores at their positions, so that looking up `predicted_class` in
`all_predictions` yields `confidence`. -/
theorem c1_format_is_argmax (v : List ℚ) (h : v.length = 7) :
    ∃ k, k < 7 ∧
      (∀ j, j < 7 → v.getD j 0 ≤ v.getD k 0) ∧
      (∀ j, j < k → v.getD j 0 < v.getD k 0) ∧
      (get_classification_results v).predicted_class = CLASS_NAMES.getD k "" ∧
      (get_classification_results v).confidence = v.getD k 0 ∧
      (get_classification_results v).all_predictions.map Prod.fst = CLASS_NAMES ∧
      (∀ i, i < 7 → (get_classification_results v).all_predictions.getD i ("", 0)
          = (CLASS_NAMES.getD i "", v.getD i 0)) ∧
      ((get_classification_results v).all_predictions.lookup
          ((get_classification_results v).predicted_class)
        = some ((get_classification_results v).confidence)) := by
  have hne : v ≠ [] := by intro hnil; rw [hnil] at h; simp at h
  obtain ⟨hlt, hmax, hfirst⟩ := np_argmax_spec v hne
  rw [h] at hlt hmax
  refine ⟨np_argmax v, hlt, hmax, hfirst, predicted_class_eq v, confidence_eq v, rfl, ?_, ?_⟩
  · intro i hi
    rw [all_predictions_eq]
    interval_cases i <;> rfl
  · rw [predicted_class_eq, confidence_eq]
    exact lookup_all_predictions v (np_argmax v) hlt

/-- A concrete score vector for the C1 witness. -/
def vC1 : List ℚ := [3, 1, 4, 1, 5, 9, 2]

/-- Witness for C1 at the concrete vector `vC1`. -/
theorem c1_format_is_argmax_witness :
    vC1.length = 7 ∧
    (∃ k, k < 7 ∧
      (∀ j, j < 7 → vC1.getD j 0 ≤ vC1.getD k 0) ∧
      (∀ j, j < k → vC1.getD j 0 < vC1.getD k 0) ∧
      (get_classification_results vC1).predicted_class = CLASS_NAMES.getD k "" ∧
      (get_classification_results vC1).confidence = vC1.getD k 0 ∧
      (get_classification_results vC1).all_predictions.map Prod.fst = CLASS_NAMES ∧
      (∀ i, i < 7 → (get_classification_results vC1).all_predictions.getD i ("", 0)
          = (CLASS_NAMES.getD i "", vC1.getD i 0)) ∧
      ((get_classification_results vC1).all_predictions.lookup
          ((get_classification_results vC1).predicted_class)
        = some ((get_classification_results vC1).confidence))) :=
  ⟨by decide, c1_format_is_argmax vC1 (by decide)⟩

/-- C8: the recommendation table has an entry of exactly 5 non-empty strings
for every canonical label; for every length-7 score vector the formatted
`recommendations` is exactly the table entry of the predicted label (the
5-string generic fallback would be substituted only for a label with no
entry, which never happens), and its length is always 5. -/
theorem c8_recommendations_exact (v : List ℚ) (h : v.length = 7) :
    (∀ name ∈ CLASS_NAMES, ∃ recs, DISEASE_RECOMMENDATIONS.lookup name = some recs ∧
        recs.length = 5 ∧ ∀ r ∈ recs, r ≠ "") ∧
    FALLBACK_RECOMMENDATIONS.length = 5 ∧
    DISEASE_RECOMMENDATIONS.lookup ((get_classification_results v).predicted_class)
      = some ((get_classification_results v).recommendations) ∧
    (get_classification_results v).recommendations.length = 5 := by
  have hlt : np_argmax v < 7 := np_argmax_lt_seven v h
  refine ⟨?_, rfl, ?_, ?_⟩
  · intro name hname
    fin_cases hname <;> exact ⟨_, rfl, rfl, by decide⟩
  · rw [predicted_class_eq, recommendations_eq]
    exact rec_lookup_getD (np_argmax v) hlt
  · rw [recommendations_eq]
    exact rec_length_getD (np_argmax v) hlt

/-- A concrete score vector for the C8 witness. -/
def vC8 : List ℚ := [0, 0, 0, 0, 0, 0, 1]

/-- Witness for C8 at the concrete vector `vC8`. -/
theorem c8_recommendations_exact_witness :
    vC8.length = 7 ∧
    ((∀ name ∈ CLASS_NAMES, ∃ recs, DISEASE_RECOMMENDATIONS.lookup name = some recs ∧
        recs.length = 5 ∧ ∀ r ∈ recs, r ≠ "") ∧
    FALLBACK_RECOMMENDATIONS.length = 5 ∧
    DISEASE_RECOMMENDATIONS.lookup ((get_classification_results vC8).predicted_class)
      = some ((get_classification_results vC8).recommendations) ∧
    (get_classification_results vC8).recommendations.length = 5) :=
  ⟨by decide, c8_recommendations_exact vC8 (by decide)⟩

/-! ### Image and file model (`utils.py`, lines 72-111)

`PIL.Image.open` is modelled on an explicit byte-stream state: a `ByteFile`
holds the decodable content (abstracted to the decoded image, or `none` for
corrupt bytes), a total byte size, and the current read position.  PIL's
`Image.open` seeks a seekable file to position 0 before reading the header, so
decoding depends only on the contents and never on the incoming position;
pixel access (`np.array(img)`) triggers PIL's lazy load, which advances the
underlying file position to the end of the data. -/

/-- A decoded image as produced by `PIL.Image.open`.  Raw per-channel values
are kept as rationals because decoded values can fall outside 0..255 for
float image modes, which is exactly what branch (b) of
`check_if_preprocessed` probes.  A decodable raster image always has positive
dimensions (decoder guarantee: zero-sized images do not decode). -/
structure PILImage where
  width : Nat
  height : Nat
  wpos : 0 < width
  hpos : 0 < height
  px : Nat → Nat → ℚ × ℚ × ℚ

/-- An image after `.convert("RGB")`: three 8-bit channels per pixel. -/
structure RGBImage where
  width : Nat
  height : Nat
  px : Nat → Nat → Fin 256 × Fin 256 × Fin 256

/-- Quantization of one raw channel value to 8 bits, as performed by
`.convert("RGB")` (clip to 0..255 and truncate). -/
def clampByte (q : ℚ) : Fin 256 :=
  ⟨min 255 (max 0 ⌊q⌋).toNat, by omega⟩

/-- `.convert("RGB")` from `utils.py` line 100: force a 3-channel 8-bit
representation; the dimensions are unchanged. -/
def convertRGB (img : PILImage) : RGBImage :=
  { width := img.width
    height := img.height
    px := fun x y =>
      (clampByte (img.px x y).1, clampByte (img.px x y).2.1, clampByte (img.px x y).2.2) }

/-- `img.resize(target_size)` from `utils.py` line 102.  PIL interprets the
target tuple as `(width, height)`.  The resampling is modelled as
nearest-neighbour source sampling; only the output dimensions and the 8-bit
pixel range are relevant to the claims. -/
def resize (img : RGBImage) (size : Nat × Nat) : RGBImage :=
  { width := size.1
    height := size.2
    px := fun x y => img.px (x * img.width / size.1) (y * img.height / size.2) }

/-- The uploaded file as a byte stream: decodable content, total size and
current read position. -/
structure ByteFile where
  content : Option PILImage
  size : Nat
  pos : Nat

/-- `PIL.Image.open(fp)`: seeks a seekable file to position 0, reads the
header and returns a lazily-loaded image.  Fails (raises, modelled as `none`)
exactly when the bytes do not decode.  The post-open position is taken as 0;
the precise header offset is irrelevant to every claim because decoding reads
from the start of the contents regardless of the incoming position. -/
def pilOpen (f : ByteFile) : Option (PILImage × ByteFile) :=
  match f.content with
  | none => none
  | some img => some (img, { f with pos := 0 })

/-- PIL's lazy pixel load (triggered by `np.array(img)`): reads the image
data, leaving the file position at the end of the stream. -/
def pilLoad (f : ByteFile) : ByteFile :=
  { f with pos := f.size }

/-- All raw channel values of a decoded image, flattened the way
`np.array(img)` exposes them. -/
def pixelValues (img : PILImage) : List ℚ :=
  (List.range img.height).flatMap fun y =>
    (List.range img.width).flatMap fun x =>
      [(img.px x y).1, (img.px x y).2.1, (img.px x y).2.2]

/-- `img_array.max()` and `img_array.min()`: `none` models the `ValueError`
numpy raises on an empty array (caught by the surrounding `except`). -/
def npMaxMin (img : PILImage) : Option (ℚ × ℚ) :=
  match pixelValues img with
  | [] => none
  | q :: qs => some (qs.foldl max q, qs.foldl min q)

/-- `check_if_preprocessed` from `utils.py` lines 72-93: open the image,
reset the file pointer, return `True` if the size already equals the target
or all decoded values lie in `[0, 1]`; any failure (undecodable bytes, empty
array) yields `False` via the `except` clause.  The second component is the
file state left behind for the caller. -/
def check_if_preprocessed (image_file : ByteFile) (target : Nat × Nat) :
    Bool × ByteFile :=
  match pilOpen image_file with
  | none => (false, image_file)
  | some (img, f1) =>
    let f2 := { f1 with pos := 0 }
    if (img.width, img.height) = target then (true, f2)
    else
      let f3 := pilLoad f2
      match npMaxMin img with
      | none => (false, f3)
      | some (mx, mn) => (if mx ≤ 1 ∧ 0 ≤ mn then true else false, f3)

/-- A 4-D numpy array as nested lists (batch, rows, columns, channels). -/
abbrev Tensor4 := List (List (List (List ℚ)))

/-- `np.array(img)` on an RGB image: rows indexed by `y` (so the first axis
has length `height`), columns by `x`, then the 3 channels. -/
def np_array_rgb (img : RGBImage) : List (List (List (Fin 256))) :=
  (List.range img.height).map fun y =>
    (List.range img.width).map fun x =>
      [(img.px x y).1, (img.px x y).2.1, (img.px x y).2.2]

/-- `preprocess_image` from `utils.py` lines 96-111: open, convert to RGB,
record the pre-resize dimensions as `"{width}x{height}"`, resize to
`target_size`, scale to floats in `[0, 1]` by dividing by 255, and prepend a
batch dimension.  Any decode failure raises `ValueError` (the error branch).
The wall-clock `processing_time` also returned by the source is real time
and outside this model; the final component is the file state left behind. -/
def preprocess_image (image_file : ByteFile) (target_size : Nat × Nat) :
    Except String (Tensor4 × String × ByteFile) :=
  match pilOpen image_file with
  | none => .error "Error preprocessing image: cannot identify image file"
  | some (img0, f1) =>
    let img := convertRGB img0
    let original_size := toString img.width ++ "x" ++ toString img.height
    let resized := resize img target_size
    let img_array := (np_array_rgb resized).map fun row =>
      row.map fun pxl => pxl.map fun c => (c.val : ℚ) / 255
    .ok ([img_array], original_size, pilLoad f1)

/-- Exact 4-D shape of a nested-list tensor (all rows uniform). -/
abbrev hasShape (t : Tensor4) (n1 n2 n3 n4 : Nat) : Prop :=
  t.length = n1 ∧ ∀ a ∈ t, a.length = n2 ∧ ∀ b ∈ a, b.length = n3 ∧ ∀ c ∈ b, c.length = n4

/-- All scalar entries of a 4-D tensor. -/
def tensorValues (t : Tensor4) : List ℚ :=
  t.flatten.flatten.flatten

/-- Tensor component of a successful `preprocess_image` run. -/
def ppTensor (f : ByteFile) (ts : Nat × Nat) : Option Tensor4 :=
  match preprocess_image f ts with
  | .ok (t, _, _) => some t
  | .error _ => none

/-- Size-string component of a successful `preprocess_image` run. -/
def ppSize (f : ByteFile) (ts : Nat × Nat) : Option String :=
  match preprocess_image f ts with
  | .ok (_, s, _) => some s
  | .error _ => none

/-- Tensor and size-string of a successful `preprocess_image` run (the
returned file state is dropped). -/
def ppView (f : ByteFile) (ts : Nat × Nat) : Option (Tensor4 × String) :=
  match preprocess_image f ts with
  | .ok (t, s, _) => some (t, s)
  | .error _ => none

/-! #### Lemmas about the pixel-range check -/

/-- A left fold of `max` is bounded above iff the seed and every element are. -/
theorem foldl_max_le (c : ℚ) :
    ∀ (xs : List ℚ) (x : ℚ), xs.foldl max x ≤ c ↔ x ≤ c ∧ ∀ y ∈ xs, y ≤ c := by
  intro xs
  induction xs with
  | nil => intro x; simp
  | cons y ys ih =>
    intro x
    rw [List.foldl_cons, ih, List.forall_mem_cons, max_le_iff]
    tauto

/-- A left fold of `min` is bounded below iff the seed and every element are. -/
theorem le_foldl_min (c : ℚ) :
    ∀ (xs : List ℚ) (x : ℚ), c ≤ xs.foldl min x ↔ c ≤ x ∧ ∀ y ∈ xs, c ≤ y := by
  intro xs
  induction xs with
  | nil => intro x; simp
  | cons y ys ih =>
    intro x
    rw [List.foldl_cons, ih, List.forall_mem_cons, le_min_iff]
    tauto

/-- A decodable image has at least one channel value. -/
theorem pixelValues_ne_nil (img : PILImage) : pixelValues img ≠ [] := by
  have hmem : (img.px 0 0).1 ∈ pixelValues img := by
    unfold pixelValues
    refine List.mem_flatMap.mpr ⟨0, List.mem_range.mpr img.hpos, ?_⟩
    refine List.mem_flatMap.mpr ⟨0, List.mem_range.mpr img.wpos, ?_⟩
    simp
  exact List.ne_nil_of_mem hmem

/-- `npMaxMin` always succeeds on a decoded image, and its bounds test is the
all-values-in-range test. -/
theorem npMaxMin_spec (img : PILImage) :
    ∃ mx mn, npMaxMin img = some (mx, mn) ∧
      ((mx ≤ 1 ∧ 0 ≤ mn) ↔ ∀ q ∈ pixelValues img, 0 ≤ q ∧ q ≤ 1) := by
  cases hpv : pixelValues img with
  | nil => exact absurd hpv (pixelValues_ne_nil img)
  | cons q qs =>
    refine ⟨qs.foldl max q, qs.foldl min q, by rw [npMaxMin, hpv], ?_⟩
    rw [foldl_max_le 1 qs q, le_foldl_min 0 qs q, List.forall_mem_cons]
    constructor
    · rintro ⟨⟨h1, h2⟩, h3, h4⟩
      exact ⟨⟨h3, h1⟩, fun y hy => ⟨h4 y hy, h2 y hy⟩⟩
    · rintro ⟨⟨h3, h1⟩, h24⟩
      exact ⟨⟨h1, fun y hy => (h24 y hy).2⟩, h3, fun y hy => (h24 y hy).1⟩

/-- Full behaviour of the heuristic on a decodable file: true exactly when
the size matches the target or all decoded values sit in `[0, 1]`. -/
theorem check_spec (f : ByteFile) (img : PILImage) (target : Nat × Nat)
    (hc : f.content = some img) :
    (check_if_preprocessed f target).1 = true ↔
      ((img.width, img.height) = target ∨ ∀ q ∈ pixelValues img, 0 ≤ q ∧ q ≤ 1) := by
  obtain ⟨mx, mn, hmm, hiff⟩ := npMaxMin_spec img
  by_cases hsz : (img.width, img.height) = target
  · simp [check_if_preprocessed, pilOpen, hc, hsz]
  · simp only [check_if_preprocessed, pilOpen, hc, if_neg hsz, hmm]
    rw [← hiff]
    constructor
    · intro hres
      by_cases hb : mx ≤ 1 ∧ 0 ≤ mn
      · exact Or.inr hb
      · simp [if_neg hb] at hres
    · rintro (h | hb)
      · exact absurd h hsz
      · simp [if_pos hb]

/-- The heuristic never changes the decodable content of the file. -/
theorem check_content_eq (f : ByteFile) (target : Nat × Nat) :
    ((check_if_preprocessed f target).2).content = f.content := by
  cases hc : f.content with
  | none => simp [check_if_preprocessed, pilOpen, hc]
  | some img =>
    simp only [check_if_preprocessed, pilOpen, hc]
    by_cases hsz : (img.width, img.height) = target
    · simp [hsz]
    · cases hmm : npMaxMin img <;> simp [hsz, hmm, pilLoad]

/-- One scaled 8-bit channel lands in `[0, 1]`. -/
theorem scale_bounds (c : Fin 256) :
    0 ≤ (c.val : ℚ) / 255 ∧ (c.val : ℚ) / 255 ≤ 1 := by
  constructor
  · exact div_nonneg (by exact_mod_cast Nat.zero_le _) (by norm_num)
  · rw [div_le_one (by norm_num)]
    exact_mod_cast Nat.lt_succ_iff.mp c.isLt

/-- Every entry of the scaled pixel array is a scaled 8-bit channel. -/
theorem mem_scaled (t : List (List (List (Fin 256)))) (q : ℚ)
    (hq : q ∈ tensorValues
      [t.map fun row => row.map fun pxl => pxl.map fun c => ((c.val : ℚ) / 255)]) :
    ∃ c : Fin 256, q = (c.val : ℚ) / 255 := by
  have h1 : tensorValues
      [t.map fun row => row.map fun pxl => pxl.map fun c => ((c.val : ℚ) / 255)] =
      (t.map fun row => row.map fun pxl => pxl.map fun c => ((c.val : ℚ) / 255)).flatten.flatten := by
    simp [tensorValues]
  rw [h1] at hq
  obtain ⟨l, hl, hq⟩ := List.mem_flatten.mp hq
  obtain ⟨l2, hl2, hl⟩ := List.mem_flatten.mp hl
  obtain ⟨row, hrow, rfl⟩ := List.mem_map.mp hl2
  obtain ⟨pxl, hpxl, rfl⟩ := List.mem_map.mp hl
  obtain ⟨c, hc, rfl⟩ := List.mem_map.mp hq
  exact ⟨c, rfl⟩

/-- C2 (amended): for every decodable image and target size `(a, b)`,
`preprocess_image` succeeds with a tensor of shape `[1, b, a, 3]` — the PIL
target tuple is `(width, height)`, and the row axis of the resulting array is
the height `b`, not the first tuple component — with every value in
`[0, 1]`, and reports `original_dimensions` as `"{width}x{height}"` of the
pre-resize image. -/
theorem c2_normalize_shape_amended (f : ByteFile) (img0 : PILImage)
    (target : Nat × Nat) (hc : f.content = some img0) :
    ∃ t s f1, preprocess_image f target = .ok (t, s, f1) ∧
      hasShape t 1 target.2 target.1 3 ∧
      (∀ q ∈ tensorValues t, 0 ≤ q ∧ q ≤ 1) ∧
      s = toString img0.width ++ "x" ++ toString img0.height := by
  unfold preprocess_image pilOpen
  rw [hc]
  refine ⟨_, _, _, rfl, ⟨by simp, ?_⟩, ?_, rfl⟩
  · intro a ha
    simp only [List.mem_singleton] at ha
    subst ha
    refine ⟨by simp [np_array_rgb, resize], ?_⟩
    intro b hb
    obtain ⟨row, hrow, rfl⟩ := List.mem_map.mp hb
    obtain ⟨y, hy, rfl⟩ := List.mem_map.mp hrow
    refine ⟨by simp [resize], ?_⟩
    intro c hcm
    obtain ⟨pxl, hpxl, rfl⟩ := List.mem_map.mp hcm
    obtain ⟨x, hx, rfl⟩ := List.mem_map.mp hpxl
    simp
  · intro q hq
    obtain ⟨c, rfl⟩ := mem_scaled _ q hq
    exact scale_bounds c

/-- A concrete 3-wide, 4-tall all-black image and its byte stream. -/
def imgC2 : PILImage :=
  { width := 3, height := 4, wpos := by norm_num, hpos := by norm_num,
    px := fun _ _ => (0, 0, 0) }

/-- Byte stream carrying `imgC2`. -/
def fileC2 : ByteFile := { content := some imgC2, size := 64, pos := 0 }

/-- Decidable shape test on the tensor produced by `preprocess_image`
(`false` when preprocessing fails). -/
def ppHasShape (f : ByteFile) (ts : Nat × Nat) (n1 n2 n3 n4 : Nat) : Bool :=
  match ppTensor f ts with
  | some t => decide (hasShape t n1 n2 n3 n4)
  | none => false

/-- C2 counterexample: at target size `(1, 2)` the produced tensor has shape
`[1, 2, 1, 3]`, not `[1, 1, 2, 3]` as the claim's reading of the target tuple
as `(height, width)` would require. -/
theorem c2_normalize_shape_counterexample :
    ppSize fileC2 (1, 2) = some "3x4" ∧
    ppHasShape fileC2 (1, 2) 1 2 1 3 = true ∧
    ppHasShape fileC2 (1, 2) 1 1 2 3 = false := by
  refine ⟨by decide, by decide, by decide⟩

/-- Witness for the amended C2 at the concrete file `fileC2`. -/
theorem c2_normalize_shape_amended_witness :
    fileC2.content = some imgC2 ∧
    (∃ t s f1, preprocess_image fileC2 (1, 2) = .ok (t, s, f1) ∧
      hasShape t 1 2 1 3 ∧
      (∀ q ∈ tensorValues t, 0 ≤ q ∧ q ≤ 1) ∧
      s = toString imgC2.width ++ "x" ++ toString imgC2.height) :=
  ⟨rfl, c2_normalize_shape_amended fileC2 imgC2 (1, 2) rfl⟩

/-- C6: on a decodable image the heuristic returns true exactly when the
pixel dimensions equal the target or every decoded value lies in `[0, 1]`;
when decoding fails it returns false instead of raising. -/
theorem c6_check_if_preprocessed_iff (f : ByteFile) (target : Nat × Nat) :
    (f.content = none → (check_if_preprocessed f target).1 = false) ∧
    ∀ img, f.content = some img →
      ((check_if_preprocessed f target).1 = true ↔
        ((img.width, img.height) = target ∨ ∀ q ∈ pixelValues img, 0 ≤ q ∧ q ≤ 1)) := by
  constructor
  · intro h
    simp [check_if_preprocessed, pilOpen, h]
  · intro img hc
    exact check_spec f img target hc

/-- A concrete 2-by-2 image with ordinary 8-bit values. -/
def imgC6 : PILImage :=
  { width := 2, height := 2, wpos := by norm_num, hpos := by norm_num,
    px := fun _ _ => (128, 7, 255) }

/-- Byte stream carrying `imgC6`, read position mid-stream. -/
def fileC6 : ByteFile := { content := some imgC6, size := 12, pos := 5 }

/-- Witness for C6 at the concrete file `fileC6`. -/
theorem c6_check_if_preprocessed_iff_witness :
    fileC6.content = some imgC6 ∧
    ((check_if_preprocessed fileC6 (2, 2)).1 = true ↔
      ((imgC6.width, imgC6.height) = (2, 2) ∨ ∀ q ∈ pixelValues imgC6, 0 ≤ q ∧ q ≤ 1)) :=
  ⟨rfl, (c6_check_if_preprocessed_iff fileC6 (2, 2)).2 imgC6 rfl⟩

/-- A 2-by-2 all-black image: every raw value is 0, hence inside `[0, 1]`. -/
def imgC7 : PILImage :=
  { width := 2, height := 2, wpos := by norm_num, hpos := by norm_num,
    px := fun _ _ => (0, 0, 0) }

/-- Byte stream carrying `imgC7`. -/
def fileC7 : ByteFile := { content := some imgC7, size := 16, pos := 0 }

/-- C7 counterexample: a raw image whose dimensions differ from the target
for which the heuristic nevertheless returns true (the value-range branch
fires on an all-black image). -/
theorem c7_roundtrip_counterexample :
    (imgC7.width, imgC7.height) ≠ (224, 224) ∧
    (check_if_preprocessed fileC7 (224, 224)).1 = true :=
  ⟨by decide, by decide⟩

/-- C7 (amended): an input already at the target size, or already entirely in
the `[0, 1]` value range, is reported as preprocessed; a raw image whose
dimensions differ from the target is reported as not preprocessed exactly
when some decoded value falls outside `[0, 1]`. -/
theorem c7_roundtrip_amended (f : ByteFile) (img : PILImage) (target : Nat × Nat)
    (hc : f.content = some img) :
    ((img.width, img.height) = target → (check_if_preprocessed f target).1 = true) ∧
    ((∀ q ∈ pixelValues img, 0 ≤ q ∧ q ≤ 1) → (check_if_preprocessed f target).1 = true) ∧
    ((img.width, img.height) ≠ target →
      ((check_if_preprocessed f target).1 = true ↔
        ∀ q ∈ pixelValues img, 0 ≤ q ∧ q ≤ 1)) := by
  have hs := check_spec f img target hc
  refine ⟨fun h => hs.mpr (Or.inl h), fun h => hs.mpr (Or.inr h), fun hne => ?_⟩
  rw [hs]
  constructor
  · rintro (h | h)
    · exact absurd h hne
    · exact h
  · exact Or.inr

/-- A 3-by-1 image with a channel value far outside `[0, 1]`. -/
def imgC7w : PILImage :=
  { width := 3, height := 1, wpos := by norm_num, hpos := by norm_num,
    px := fun _ _ => (200, 10, 0) }

/-- Byte stream carrying `imgC7w`. -/
def fileC7w : ByteFile := { content := some imgC7w, size := 9, pos := 2 }

/-- Witness for the amended C7 at the concrete file `fileC7w`. -/
theorem c7_roundtrip_amended_witness :
    fileC7w.content = some imgC7w ∧
    (((imgC7w.width, imgC7w.height) = (2, 2) →
        (check_if_preprocessed fileC7w (2, 2)).1 = true) ∧
      ((∀ q ∈ pixelValues imgC7w, 0 ≤ q ∧ q ≤ 1) →
        (check_if_preprocessed fileC7w (2, 2)).1 = true) ∧
      ((imgC7w.width, imgC7w.height) ≠ (2, 2) →
        ((check_if_preprocessed fileC7w (2, 2)).1 = true ↔
          ∀ q ∈ pixelValues imgC7w, 0 ≤ q ∧ q ≤ 1))) :=
  ⟨rfl, c7_roundtrip_amended fileC7w imgC7w (2, 2) rfl⟩

/-- C10: running the preprocessed-check first does not change what
`preprocess_image` subsequently decodes — the tensor and size string are the
same as from a fresh file, whatever read position the check left behind
(`Image.open` rewinds seekable streams before decoding). -/
theorem c10_check_leaves_file_decodable (f : ByteFile) (target ts : Nat × Nat) :
    ppView ((check_if_preprocessed f target).2) ts = ppView f ts := by
  have hcontent := check_content_eq f target
  unfold ppView preprocess_image pilOpen
  rw [hcontent]
  cases f.content <;> simp

/-! ### ONNX inference (`utils.py`, lines 114-159) -/

/-- A declared model input dimension: a fixed extent or a symbolic name. -/
inductive OrtDim
  | val (n : Nat)
  | sym (name : String)
  deriving Repr, DecidableEq

/-- The list comprehension at `utils.py` lines 130-132: symbolic (string)
dimensions are resolved to `None`. -/
def resolveDim : OrtDim → Option Nat
  | .val n => some n
  | .sym _ => none

/-- An ndarray as the inference interface sees it: shape plus flat data
(`astype(np.float32)` is the identity in the rational model). -/
structure NpTensor where
  shape : List Nat
  data : List ℚ
  deriving Repr, DecidableEq

/-- `np.squeeze` at `utils.py` line 150: drop all axes of extent 1. -/
def np_squeeze (t : NpTensor) : NpTensor :=
  { shape := t.shape.filter (fun d => d != 1), data := t.data }

/-- An ONNX Runtime session: declared input name and shape, and the forward
pass (`none` models a runtime failure during execution). -/
structure OrtSession where
  input_name : String
  input_shape : List OrtDim
  run : NpTensor → Option NpTensor

/-- The process environment: which paths exist on disk
(`os.path.exists`), and what `ort.InferenceSession(path)` yields
(`none`: the constructor raises). -/
structure OrtEnv where
  path_exists : String → Bool
  load : String → Option OrtSession

/-- The Django settings the pipeline reads. -/
structure Settings where
  MODEL_PATH : String
  TARGET_IMAGE_SIZE : Nat × Nat

/-- Per-process counter of `ort.InferenceSession(...)` constructions,
incremented on every evaluation of the constructor expression at
`utils.py` line 118. -/
structure ProcState where
  sessions_created : Nat
  deriving Repr, DecidableEq

/-- The error data of the three `raise ValueError` sites inside
`run_onnx_inference`.  In the source every one of them is caught by the
enclosing `except Exception` and re-raised as
`ValueError("❌ Error during ONNX inference: " + str(e))`, so the caller
always sees a `ValueError` whose message embeds this data. -/
inductive OnnxError
  | rankMismatch (expected actual : Nat)
  | dimMismatch (index expected actual : Nat)
  | runtime (msg : String)
  deriving Repr, DecidableEq

/-- `str(e)` of the wrapped `ValueError` the caller of
`run_onnx_inference` observes. -/
def onnx_error_message : OnnxError → String
  | .rankMismatch e a =>
      "❌ Error during ONNX inference: Dimension mismatch. Expected " ++
        toString e ++ "D, got " ++ toString a ++ "D"
  | .dimMismatch i e a =>
      "❌ Error during ONNX inference: Shape mismatch at dimension " ++
        toString i ++ ": expected " ++ toString e ++ ", got " ++ toString a
  | .runtime m => "❌ Error during ONNX inference: " ++ m

/-- Whether an error originates at one of the two shape-validation raise
sites. -/
def isShapeError : OnnxError → Bool
  | .rankMismatch _ _ => true
  | .dimMismatch _ _ _ => true
  | .runtime _ => false

/-- The `for i, (actual_dim, expected_dim) in enumerate(zip(...))` loop at
`utils.py` lines 140-146: the first offending non-wildcard dimension as
`(index, expected, actual)`, if any. -/
def findShapeMismatch : List (Nat × Option Nat) → Nat → Option (Nat × Nat × Nat)
  | [], _ => none
  | (actual, expected) :: rest, i =>
    match expected with
    | some e => if actual ≠ e then some (i, e, actual) else findShapeMismatch rest (i + 1)
    | none => findShapeMismatch rest (i + 1)

/-- `run_onnx_inference` from `utils.py` lines 114-153: construct a fresh
session (on every call), read the declared input shape, resolve symbolic
dimensions to wildcards, validate rank and every non-wildcard dimension, run
the forward pass and squeeze the output.  All raised errors reach the caller
wrapped as `ValueError`; the first component counts session constructions. -/
def run_onnx_inference (env : OrtEnv) (settings : Settings) (st : ProcState)
    (image_array : NpTensor) : ProcState × Except OnnxError NpTensor :=
  let st1 : ProcState := { sessions_created := st.sessions_created + 1 }
  (st1,
    match env.load settings.MODEL_PATH with
    | none => .error (.runtime "failed to create inference session")
    | some session =>
      let expected_shape := session.input_shape
      let resolved_shape := expected_shape.map resolveDim
      if image_array.shape.length ≠ resolved_shape.length then
        .error (.rankMismatch resolved_shape.length image_array.shape.length)
      else
        match findShapeMismatch (image_array.shape.zip resolved_shape) 0 with
        | some (i, e, a) => .error (.dimMismatch i e a)
        | none =>
          match session.run image_array with
          | none => .error (.runtime "execution failed")
          | some output => .ok (np_squeeze output))

/-! #### Lemmas about shape validation -/

/-- A zip entry is `some` exactly when both components are. -/
theorem get?_zip_eq_some {α β : Type} (l1 : List α) :
    ∀ (l2 : List β) (i : Nat) (a : α) (b : β),
      (l1.zip l2).get? i = some (a, b) ↔ l1.get? i = some a ∧ l2.get? i = some b := by
  induction l1 with
  | nil => intro l2 i a b; simp
  | cons x l1 ih =>
    intro l2 i a b
    cases l2 with
    | nil => simp
    | cons y l2 =>
      cases i with
      | zero => simp [And.comm]
      | succ n => simpa using ih l2 n a b

/-- The dimension scan returns `none` exactly when every non-wildcard entry
matches. -/
theorem findShapeMismatch_none_iff (l : List (Nat × Option Nat)) :
    ∀ i0, findShapeMismatch l i0 = none ↔
      ∀ j a e, l.get? j = some (a, some e) → a = e := by
  induction l with
  | nil =>
    intro i0
    constructor
    · intro _ j a e hj
      simp at hj
    · intro _
      rfl
  | cons p rest ih =>
    intro i0
    obtain ⟨actual, expected⟩ := p
    cases expected with
    | none =>
      rw [show findShapeMismatch ((actual, none) :: rest) i0
            = findShapeMismatch rest (i0 + 1) from rfl, ih (i0 + 1)]
      constructor
      · intro h j a e hj
        cases j with
        | zero => simp at hj
        | succ k => exact h k a e (by simpa using hj)
      · intro h j a e hj
        exact h (j + 1) a e (by simpa using hj)
    | some ev =>
      by_cases hne : actual ≠ ev
      · rw [show findShapeMismatch ((actual, some ev) :: rest) i0
              = some (i0, ev, actual) from by simp [findShapeMismatch, hne]]
        constructor
        · intro h
          simp at h
        · intro h
          exact absurd (h 0 actual ev rfl) hne
      · push_neg at hne
        rw [show findShapeMismatch ((actual, some ev) :: rest) i0
              = findShapeMismatch rest (i0 + 1) from by simp [findShapeMismatch, hne],
          ih (i0 + 1)]
        constructor
        · intro h j a e hj
          cases j with
          | zero =>
            simp at hj
            omega
          | succ k => exact h k a e (by simpa using hj)
        · intro h j a e hj
          exact h (j + 1) a e (by simpa using hj)

/-- When the dimension scan reports `(i, e, a)`, position `i - i0` of the
zipped list really holds a mismatching non-wildcard pair `(a, some e)`. -/
theorem findShapeMismatch_some (l : List (Nat × Option Nat)) :
    ∀ i0 i e a, findShapeMismatch l i0 = some (i, e, a) →
      i0 ≤ i ∧ l.get? (i - i0) = some (a, some e) ∧ a ≠ e := by
  induction l with
  | nil =>
    intro i0 i e a h
    simp [findShapeMismatch] at h
  | cons p rest ih =>
    intro i0 i e a h
    obtain ⟨actual, expected⟩ := p
    cases expected with
    | none =>
      obtain ⟨hle, hget, hne⟩ :=
        ih (i0 + 1) i e a (by simpa [findShapeMismatch] using h)
      refine ⟨by omega, ?_, hne⟩
      have hix : i - i0 = (i - (i0 + 1)) + 1 := by omega
      rw [hix]
      simpa using hget
    | some ev =>
      by_cases hne : actual ≠ ev
      · have h' : some (i0, ev, actual) = some (i, e, a) := by
          simpa [findShapeMismatch, hne] using h
        obtain ⟨rfl, rfl, rfl⟩ : i0 = i ∧ ev = e ∧ actual = a := by
          simpa using h'
        exact ⟨le_refl _, by simp, hne⟩
      · push_neg at hne
        obtain ⟨hle, hget, hne2⟩ :=
          ih (i0 + 1) i e a (by simpa [findShapeMismatch, hne] using h)
        refine ⟨by omega, ?_, hne2⟩
        have hix : i - i0 = (i - (i0 + 1)) + 1 := by omega
        rw [hix]
        simpa using hget

/-! ### Request handling (`views.py`, `ClassifyImageView.post`, lines 114-186) -/

/-- The shape numpy reports for the (uniform) nested-list tensor. -/
def np_shape4 (t : Tensor4) : List Nat :=
  [t.length, (t.headD []).length, ((t.headD []).headD []).length,
    (((t.headD []).headD []).headD []).length]

/-- The same ndarray that `preprocess_image` produced, viewed through its
shape and flat data for the inference interface. -/
def np_of_tensor4 (t : Tensor4) : NpTensor :=
  { shape := np_shape4 t, data := tensorValues t }

/-- Pipeline steps observable in a request trace. -/
inductive Step
  | preprocessCheck
  | preprocess
  | inference
  | formatResults
  | save
  deriving Repr, DecidableEq

/-- An incoming classification request after parsing: whether the upload
serializer accepts it, and the uploaded file. -/
structure Request where
  valid_upload : Bool
  image_file : ByteFile

/-- The responses `ClassifyImageView.post` produces in the modelled flow.
`valueError400` is the `except ValueError` branch at `views.py` lines
180-181, reached by preprocessing errors and by every wrapped inference
error alike; the catch-all `except Exception` 500 branch (database or
storage failures) is outside the model. -/
inductive PostResponse
  | invalid400
  | modelNotFound500
  | valueError400 (msg : String)
  | success200 (results : ClassificationResults) (is_pre : Bool) (image_size : String)
  deriving Repr, DecidableEq

/-- HTTP status code of a modelled response. -/
def http_status : PostResponse → Nat
  | .invalid400 => 400
  | .modelNotFound500 => 500
  | .valueError400 _ => 400
  | .success200 _ _ _ => 200

/-- `ClassifyImageView.post` from `views.py` lines 114-186: serializer
validation, the `os.path.exists(settings.MODEL_PATH)` guard, then the
preprocessed-check, preprocessing, inference and result formatting, with
`ValueError`s mapped to HTTP 400.  The result carries the final process
state, the trace of pipeline steps performed, and the response. -/
def classify_post (env : OrtEnv) (settings : Settings) (st : ProcState)
    (req : Request) : ProcState × List Step × PostResponse :=
  if req.valid_upload = false then (st, [], .invalid400)
  else if env.path_exists settings.MODEL_PATH = false then (st, [], .modelNotFound500)
  else
    let checked := check_if_preprocessed req.image_file settings.TARGET_IMAGE_SIZE
    let is_pre := checked.1
    match preprocess_image checked.2 settings.TARGET_IMAGE_SIZE with
    | .error msg => (st, [.preprocessCheck, .preprocess], .valueError400 msg)
    | .ok (tensor, original_size, _) =>
      let res := run_onnx_inference env settings st (np_of_tensor4 tensor)
      match res.2 with
      | .error e =>
        (res.1, [.preprocessCheck, .preprocess, .inference],
          .valueError400 (onnx_error_message e))
      | .ok out =>
        let results := get_classification_results out.data
        (res.1, [.preprocessCheck, .preprocess, .inference, .formatResults, .save],
          .success200 results is_pre original_size)

/-- C3: with a loaded session, a tensor of wrong rank fails with the
rank-mismatch error reporting both ranks; a tensor of matching rank that
disagrees with some non-wildcard declared dimension fails with the
dimension-mismatch error reporting the offending index, the expected and the
actual extent; when every non-wildcard dimension matches (symbolic
dimensions are never checked), no shape error is raised. -/
theorem c3_infer_shape_validation (env : OrtEnv) (settings : Settings)
    (st : ProcState) (session : OrtSession) (t : NpTensor)
    (hload : env.load settings.MODEL_PATH = some session) :
    (t.shape.length ≠ session.input_shape.length →
      (run_onnx_inference env settings st t).2 =
        .error (.rankMismatch session.input_shape.length t.shape.length)) ∧
    (t.shape.length = session.input_shape.length →
      (∃ j a e, t.shape.get? j = some a ∧
          (session.input_shape.map resolveDim).get? j = some (some e) ∧ a ≠ e) →
      ∃ i e a, (session.input_shape.map resolveDim).get? i = some (some e) ∧
        t.shape.get? i = some a ∧ a ≠ e ∧
        (run_onnx_inference env settings st t).2 = .error (.dimMismatch i e a)) ∧
    (t.shape.length = session.input_shape.length →
      (∀ j a e, t.shape.get? j = some a →
        (session.input_shape.map resolveDim).get? j = some (some e) → a = e) →
      ∀ err, (run_onnx_inference env settings st t).2 = .error err →
        isShapeError err = false) := by
  have hlen : (session.input_shape.map resolveDim).length = session.input_shape.length := by
    simp
  refine ⟨?_, ?_, ?_⟩
  · intro hrank
    simp only [run_onnx_inference, hload]
    rw [if_pos (by rw [hlen]; exact hrank), hlen]
  · intro hrank hex
    have hlen2 : t.shape.length = (session.input_shape.map resolveDim).length := by
      rw [hlen]; exact hrank
    cases hfind : findShapeMismatch (t.shape.zip (session.input_shape.map resolveDim)) 0 with
    | none =>
      exfalso
      obtain ⟨j, a, e, hja, hje, hne⟩ := hex
      have hall := (findShapeMismatch_none_iff _ 0).mp hfind
      exact hne (hall j a e ((get?_zip_eq_some _ _ _ _ _).mpr ⟨hja, hje⟩))
    | some tri =>
      obtain ⟨i, e, a⟩ := tri
      obtain ⟨-, hget, hne⟩ := findShapeMismatch_some _ 0 i e a hfind
      rw [Nat.sub_zero] at hget
      obtain ⟨hsha, hres⟩ := (get?_zip_eq_some _ _ _ _ _).mp hget
      refine ⟨i, e, a, hres, hsha, hne, ?_⟩
      simp only [run_onnx_inference, hload]
      rw [if_neg (fun hc => hc hlen2), hfind]
  · intro hrank hall err
    have hlen2 : t.shape.length = (session.input_shape.map resolveDim).length := by
      rw [hlen]; exact hrank
    have hfind : findShapeMismatch (t.shape.zip (session.input_shape.map resolveDim)) 0
        = none := by
      rw [findShapeMismatch_none_iff]
      intro j a e hj
      obtain ⟨hja, hje⟩ := (get?_zip_eq_some _ _ _ _ _).mp hj
      exact hall j a e hja hje
    simp only [run_onnx_inference, hload]
    rw [if_neg (fun hc => hc hlen2), hfind]
    cases hrun : session.run t with
    | none =>
      intro h
      obtain rfl : OnnxError.runtime "execution failed" = err := by simpa using h
      rfl
    | some output =>
      intro h
      simp at h

/-- A concrete session whose model declares a symbolic batch and fixed
224-by-224-by-3 input. -/
def sessionC3 : OrtSession :=
  { input_name := "input_1"
    input_shape := [.sym "unk_batch", .val 224, .val 224, .val 3]
    run := fun _ => some { shape := [1, 7], data := [1, 0, 0, 0, 0, 0, 0] } }

/-- Environment in which every path exists and loads `sessionC3`. -/
def envC3 : OrtEnv := { path_exists := fun _ => true, load := fun _ => some sessionC3 }

/-- Concrete settings. -/
def settingsC3 : Settings :=
  { MODEL_PATH := "models/potato_model.onnx", TARGET_IMAGE_SIZE := (224, 224) }

/-- A rank-3 tensor against the rank-4 declaration. -/
def tRank3 : NpTensor := { shape := [224, 224, 3], data := [] }

/-- Witness for C3: a rank-3 tensor against `sessionC3` produces exactly the
rank-mismatch error. -/
theorem c3_infer_shape_validation_witness :
    envC3.load settingsC3.MODEL_PATH = some sessionC3 ∧
    tRank3.shape.length ≠ sessionC3.input_shape.length ∧
    (run_onnx_inference envC3 settingsC3 ⟨0⟩ tRank3).2 =
      .error (.rankMismatch sessionC3.input_shape.length tRank3.shape.length) :=
  ⟨rfl, by decide,
    (c3_infer_shape_validation envC3 settingsC3 ⟨0⟩ sessionC3 tRank3 rfl).1 (by decide)⟩

/-- A session declaring a fixed `[1, 5, 5, 3]` input, mismatching the
`[1, 2, 2, 3]` tensors produced at target size `(2, 2)`. -/
def sessionC4 : OrtSession :=
  { input_name := "input_1"
    input_shape := [.val 1, .val 5, .val 5, .val 3]
    run := fun _ => some { shape := [1, 7], data := [1, 0, 0, 0, 0, 0, 0] } }

/-- Environment loading `sessionC4` for every path. -/
def envC4 : OrtEnv := { path_exists := fun _ => true, load := fun _ => some sessionC4 }

/-- Settings with a small target size. -/
def settingsC4 : Settings :=
  { MODEL_PATH := "models/potato_model.onnx", TARGET_IMAGE_SIZE := (2, 2) }

/-- A valid request carrying the decodable 2-by-2 image `imgC7`. -/
def reqC4 : Request := { valid_upload := true, image_file := fileC7 }

/-- A valid request carrying undecodable bytes. -/
def reqC4corrupt : Request :=
  { valid_upload := true, image_file := { content := none, size := 3, pos := 0 } }

/-- C4: the handler returns HTTP 400 (the client-input-fault `except
ValueError` branch) for a shape-mismatch failure, exactly as it does for a
preprocessing failure — the shape error arrives wrapped in the generic
inference `ValueError` and is presented as a client fault, not as the server
fault the error taxonomy (and the view's own 500-response documentation)
prescribes, and it is not distinguishable in kind from an inference error. -/
theorem c4_error_mapping_divergence :
    (classify_post envC4 settingsC4 ⟨0⟩ reqC4).2.2 =
      .valueError400 (onnx_error_message (.dimMismatch 1 5 2)) ∧
    http_status (classify_post envC4 settingsC4 ⟨0⟩ reqC4).2.2 = 400 ∧
    (classify_post envC4 settingsC4 ⟨0⟩ reqC4corrupt).2.2 =
      .valueError400 "Error preprocessing image: cannot identify image file" ∧
    http_status (classify_post envC4 settingsC4 ⟨0⟩ reqC4corrupt).2.2 = 400 :=
  ⟨by decide, by decide, by decide, by decide⟩

/-- C5 (amended): `ort.InferenceSession` is constructed anew on every
classification request that reaches the inference step — exactly one
construction per such request, and none for requests that stop earlier;
nothing is cached across requests. -/
theorem c5_amended_session_per_request (env : OrtEnv) (settings : Settings)
    (st : ProcState) (req : Request) :
    (classify_post env settings st req).1.sessions_created =
      st.sessions_created +
        (if Step.inference ∈ (classify_post env settings st req).2.1 then 1 else 0) := by
  unfold classify_post
  by_cases hv : req.valid_upload = false
  · simp [hv]
  · by_cases hm : env.path_exists settings.MODEL_PATH = false
    · simp [hv, hm]
    · simp only [if_neg hv, if_neg hm]
      cases hpp : preprocess_image
          (check_if_preprocessed req.image_file settings.TARGET_IMAGE_SIZE).2
          settings.TARGET_IMAGE_SIZE with
      | error msg => simp
      | ok trip =>
        obtain ⟨tensor, original_size, fleft⟩ := trip
        cases hres : (run_onnx_inference env settings st (np_of_tensor4 tensor)).2 with
        | error e =>
          simp only [hres]
          rfl
        | ok out =>
          simp only [hres]
          rfl

/-- A session accepting the `[1, 2, 2, 3]` tensors of target size `(2, 2)`
and returning a 7-score output. -/
def sessionC5 : OrtSession :=
  { input_name := "input_1"
    input_shape := [.sym "unk_batch", .val 2, .val 2, .val 3]
    run := fun _ => some { shape := [1, 7], data := [0, 0, 0, 0, 0, 0, 1] } }

/-- Environment loading `sessionC5` for every path. -/
def envC5 : OrtEnv := { path_exists := fun _ => true, load := fun _ => some sessionC5 }

/-- Settings with target size `(2, 2)`. -/
def settingsC5 : Settings :=
  { MODEL_PATH := "models/potato_model.onnx", TARGET_IMAGE_SIZE := (2, 2) }

/-- A valid request carrying the decodable 2-by-2 image `imgC7`. -/
def reqC5 : Request := { valid_upload := true, image_file := fileC7 }

/-- C5 counterexample: two classification requests in one process construct
two inference sessions — the session is rebuilt per request, never cached,
refuting at-most-once-per-process construction. -/
theorem c5_counterexample :
    ((classify_post envC5 settingsC5
        (classify_post envC5 settingsC5 ⟨0⟩ reqC5).1 reqC5).1.sessions_created = 2) ∧
    ¬ ((classify_post envC5 settingsC5
        (classify_post envC5 settingsC5 ⟨0⟩ reqC5).1 reqC5).1.sessions_created ≤ 1) :=
  ⟨by decide, by decide⟩

/-- C9: when no file exists at the configured model path, a valid
classification request fails with the model-not-found 500 response before
any pipeline step — no preprocessing check, no preprocessing, no inference —
and no session is constructed. -/
theorem c9_model_missing_short_circuits (env : OrtEnv) (settings : Settings)
    (st : ProcState) (req : Request)
    (hv : req.valid_upload = true)
    (hm : env.path_exists settings.MODEL_PATH = false) :
    classify_post env settings st req = (st, [], .modelNotFound500) := by
  simp [classify_post, hv, hm]

/-- Environment with no existing paths. -/
def envC9 : OrtEnv := { path_exists := fun _ => false, load := fun _ => none }

/-- A valid request carrying the decodable image `imgC2`. -/
def reqC9 : Request := { valid_upload := true, image_file := fileC2 }

/-- Witness for C9 at a concrete environment with a missing model file. -/
theorem c9_model_missing_short_circuits_witness :
    reqC9.valid_upload = true ∧
    envC9.path_exists settingsC3.MODEL_PATH = false ∧
    classify_post envC9 settingsC3 ⟨0⟩ reqC9 = (⟨0⟩, [], .modelNotFound500) :=
  ⟨rfl, rfl, c9_model_missing_short_circuits envC9 settingsC3 ⟨0⟩ reqC9 rfl rfl⟩

end PotatoClassifier
